import Mathlib

/-!
Verification of the table-extraction pipeline (`src/utils.py`, `src/table_utils.py`,
`src/fetch.py`) against its natural-language specification.

Strings are modelled as `List Char`.  Python string primitives (`strip`, `lstrip`,
`lower`, `in`, `count`, `split`, `join`) are embedded below with Python semantics;
the whitespace predicate covers the whitespace characters that occur in this code
base (ASCII whitespace plus the no-break space, which Python's `str.strip` removes).
-/

/-- Models Python's whitespace test used by `str.strip`/`str.lstrip`/`str.rstrip`
(ASCII whitespace and the no-break space U+00A0). -/
def pyIsSpace (c : Char) : Bool :=
  c = ' ' || c = '\t' || c = '\n' || c = '\r' || c = '\x0b' || c = '\x0c' || c = '\u00a0'

/-- Python `str.lstrip()`. -/
def pyLstrip (s : List Char) : List Char := s.dropWhile pyIsSpace

/-- Python `str.rstrip()`. -/
def pyRstrip (s : List Char) : List Char := (s.reverse.dropWhile pyIsSpace).reverse

/-- Python `str.strip()`. -/
def pyStrip (s : List Char) : List Char := pyRstrip (pyLstrip s)

/-- Python `str.lower()` (ASCII letters; the code only compares against ASCII
literals such as "none"). -/
def pyLower (s : List Char) : List Char := s.map Char.toLower

/-- `startsWith pat s` holds when `pat` occurs at the very beginning of `s`. -/
def startsWith : List Char → List Char → Bool
  | [], _ => true
  | _ :: _, [] => false
  | a :: as, b :: bs => a = b && startsWith as bs

/-- Python's substring test `pat in s` (literal containment). -/
def containsSeq (pat : List Char) : List Char → Bool
  | [] => pat.isEmpty
  | c :: rest => startsWith pat (c :: rest) || containsSeq pat rest

/-- Scanner of `countSeq`; the fuel argument bounds the number of scanned
positions (one unit per consumed character suffices). -/
def countSeqGo (pat : List Char) : Nat → List Char → Nat
  | 0, _ => 0
  | _, [] => 0
  | fuel + 1, c :: rest =>
    if pat ≠ [] ∧ startsWith pat (c :: rest) = true then
      1 + countSeqGo pat fuel (List.drop (pat.length - 1) rest)
    else
      countSeqGo pat fuel rest

/-- Python's `s.count(pat)`: non-overlapping occurrences, scanned left to right.
(The code only counts nonempty literal patterns.) -/
def countSeq (pat s : List Char) : Nat := countSeqGo pat s.length s

/-- Loop of `check_valid_value` (`src/utils.py` lines 353-359): grow the tested
prefix length `i` from 1; remember the last prefix found in the source and stop
at the first containment failure.  The fuel argument is the number of remaining
loop iterations (Python iterates `i` over `range(1, len(value) + 1)`). -/
def cvvLoop (html_content value : List Char) : Nat → Nat → List Char → List Char
  | 0, _, longest => longest
  | fuel + 1, i, longest =>
    if containsSeq (value.take i) html_content then
      cvvLoop html_content value fuel (i + 1) (value.take i)
    else
      longest

/-- `check_valid_value` (`src/utils.py` lines 336-361): returns the longest
leading portion of `value` that occurs literally inside `html_content`;
an empty `value` or empty `html_content` yields the empty string. -/
def check_valid_value (html_content value : List Char) : List Char :=
  if value = [] ∨ html_content = [] then []
  else cvvLoop html_content value value.length 1 []

/-- The body string handed to Python's `float()` by `is_numeric_value`
(`src/utils.py` lines 170-189), or `none` when the function rejects the input
before attempting the conversion (empty after stripping, or `-`/empty after
removing `$` and `,`).  The returned string is the normalized numeric text:
parentheses become a leading minus sign. -/
def numeric_cleaned (text : List Char) : Option (List Char) :=
  let cleaned := pyStrip text
  if cleaned = [] then none
  else
    let isNeg : Bool := cleaned.headD ' ' = '(' && cleaned.getLastD ' ' = ')'
    let inner := if isNeg then (cleaned.drop 1).dropLast else cleaned
    let noSym := inner.filter (fun c => !(c = '$' || c = ','))
    if noSym = ['-'] ∨ noSym = [] then none
    else some (if isNeg then '-' :: noSym else noSym)

/-- A run of decimal digits possibly holding single underscores between digits,
continued (models the tail of a digit group accepted by CPython `float()`). -/
def digitRunRest : List Char → Bool
  | [] => true
  | c :: rest =>
    if c = '_' then
      match rest with
      | [] => false
      | d :: rest2 => d.isDigit && digitRunRest rest2
    else
      c.isDigit && digitRunRest rest

/-- A nonempty run of decimal digits with optional single underscores between
digits, as accepted inside a CPython `float()` literal. -/
def digitRun : List Char → Bool
  | [] => false
  | c :: rest => c.isDigit && digitRunRest rest

/-- Split a character list at the first character satisfying `p`, returning the
part before it and the part after it. -/
def breakAt (p : Char → Bool) : List Char → Option (List Char × List Char)
  | [] => none
  | c :: rest =>
    if p c then some ([], rest)
    else (breakAt p rest).map (fun pr => (c :: pr.1, pr.2))

/-- The digits-and-dot part of a CPython `float()` literal: `d`, `d.`, `d.d` or
`.d` where `d` is a digit run. -/
def mantissaOk (s : List Char) : Bool :=
  match breakAt (fun c => c = '.') s with
  | none => digitRun s
  | some (a, b) =>
    if b.contains '.' then false
    else (digitRun a && (b = [] || digitRun b)) || (a.isEmpty && digitRun b)

/-- The exponent part of a CPython `float()` literal: optional sign then digits. -/
def expOk (s : List Char) : Bool :=
  match s with
  | '+' :: rest => digitRun rest
  | '-' :: rest => digitRun rest
  | _ => digitRun s

/-- A signless CPython `float()` body: `inf`/`infinity`/`nan` (case folded) or a
mantissa with optional exponent. -/
def floatBody (s : List Char) : Bool :=
  let low := pyLower s
  if low = "inf".toList || low = "infinity".toList || low = "nan".toList then true
  else
    match breakAt (fun c => c = 'e' || c = 'E') s with
    | none => mantissaOk s
    | some (m, ex) => mantissaOk m && expOk ex

/-- Models the success of Python's `float(s)` conversion on a string. -/
def pyFloatValid (s : List Char) : Bool :=
  let t := pyStrip s
  match t with
  | '+' :: rest => floatBody rest
  | '-' :: rest => floatBody rest
  | _ => floatBody t

/-- `is_numeric_value` (`src/utils.py` lines 166-195): strips the input, turns a
parenthesized number into a negative one, removes `$` and `,`, rejects `-` and
empty remainders, and finally asks whether `float()` accepts the result. -/
def is_numeric_value (text : List Char) : Bool :=
  match numeric_cleaned text with
  | none => false
  | some s => pyFloatValid s

/-! ## Stage-A/Stage-B post-processing (`src/fetch.py`)

The extraction-service round trip (`fetch_parsed`) is modelled by its outcome:
an `Except Unit σ` value, where `σ` is the parsed response schema
(`model_dump()` of the pydantic output) and `error` stands for any raised
exception.  The processing around the call is translated statement by
statement. -/

/-- `CellOutput` schema (`src/formats.py`): one `{value, period}` pair. -/
structure CellOutput where
  value : List Char
  period : List Char
deriving DecidableEq

/-- Stage-A metric descriptor as produced by `_fetch_table_data_row_wise_output`
and consumed by `_fetch_table_data_cell_wise_output` (`metric_data`). -/
structure MetricData where
  index : List Char
  category : List Char
  title : List Char
  unit : List Char
  type_ : List Char
  reference : List Char
deriving DecidableEq

/-- One dictionary appended to `result` by `_fetch_table_data_cell_wise_output`. -/
structure TableRecord where
  index : List Char
  category : List Char
  title : List Char
  value : List Char
  unit : List Char
  type_ : List Char
  period : List Char
  reference : List Char
deriving DecidableEq

/-- The record literal of `src/fetch.py` lines 244-255: descriptor fields are
copied through, `value`/`period` come from the response cell, stripped. -/
def mkTableRecord (md : MetricData) (cell : CellOutput) : TableRecord :=
  { index := md.index
    category := md.category
    title := md.title
    value := pyStrip cell.value
    unit := md.unit
    type_ := md.type_
    period := pyStrip cell.period
    reference := md.reference }

/-- The `for cell in table_output.model_dump()["data"]` loop of
`_fetch_table_data_cell_wise_output` (`src/fetch.py` lines 240-256).
`added_cell = set()` appears INSIDE the loop body, so the membership test sees
a freshly emptied set on every iteration. -/
def processCells (md : MetricData) : List CellOutput → List TableRecord
  | [] => []
  | cell :: rest =>
    let added : List (List Char × List Char) := []
    if pyStrip cell.value ≠ [] ∧ pyStrip (pyLower cell.value) ≠ "none".toList
        ∧ (cell.value, cell.period) ∉ added then
      mkTableRecord md cell :: processCells md rest
    else
      processCells md rest

/-- `_fetch_table_data_cell_wise_output` (`src/fetch.py` lines 200-261), with the
extraction-service call abstracted to its outcome: a raised exception is caught
and yields `[]`, a parsed `CellListOutput` is folded through the record loop. -/
def fetch_table_data_cell_wise_output (md : MetricData)
    (resp : Except Unit (List CellOutput)) : List TableRecord :=
  match resp with
  | Except.ok cells => processCells md cells
  | Except.error _ => []

/-- `ExtractedOutput` schema (`src/formats.py`): three index-aligned arrays. -/
structure ExtractedOutputT where
  titles : List (List Char)
  values : List (List Char)
  units : List (List Char)
deriving DecidableEq

/-- A Python dict from string keys to string-array values, as returned by
`fetch_line` inside `_fetch_extracted_output`. -/
abbrev PyDict := List (List Char × List (List Char))

/-- Python `d[k]`: `some` value on a present key, `none` models `KeyError`. -/
def dictGet (d : PyDict) (k : List Char) : Option (List (List Char)) :=
  (d.find? (fun p => p.1 = k)).map Prod.snd

/-- `fetch_line` of `_fetch_extracted_output` (`src/fetch.py` lines 71-98): on
success the `model_dump()` of an `ExtractedOutput` (keys `titles`, `values`,
`units`); on a caught exception the literal default
`{"kpis": [], "values": [], "units": []}`. -/
def fetch_line_result (resp : Except Unit ExtractedOutputT) : PyDict :=
  match resp with
  | Except.ok o => [("titles".toList, o.titles), ("values".toList, o.values), ("units".toList, o.units)]
  | Except.error _ => [("kpis".toList, []), ("values".toList, []), ("units".toList, [])]

/-- One provisional descriptor per `(title, value, unit)` triple, tagged with the
originating sentence (`src/fetch.py` lines 106-113). -/
structure LineRecord where
  title : List Char
  value : List Char
  unit : List Char
  reference : List Char
deriving DecidableEq

/-- Python `zip(a, b, c)`: truncates to the shortest list. -/
def zip3 {α β γ : Type} : List α → List β → List γ → List (α × β × γ)
  | a :: as, b :: bs, c :: cs => (a, b, c) :: zip3 as bs cs
  | _, _, _ => []

/-- The collection loop of `_fetch_extracted_output` (`src/fetch.py` lines
102-115): `for result, line in zip(results, lines): for title, value, unit in
zip(result['titles'], result['values'], result['units']): append`.  Dictionary
accesses are fallible: a missing key raises `KeyError`, modelled by `none`
(the run for this document aborts instead of reaching the merge step). -/
def collectExtracted : List PyDict → List (List Char) → Option (List LineRecord)
  | [], _ => some []
  | _ :: _, [] => some []
  | d :: ds, l :: ls =>
    match dictGet d "titles".toList, dictGet d "values".toList, dictGet d "units".toList with
    | some ts, some vs, some us =>
      match collectExtracted ds ls with
      | some rest =>
        some (((zip3 ts vs us).map (fun t3 => ⟨t3.1, t3.2.1, t3.2.2, l⟩)) ++ rest)
      | none => none
    | _, _, _ => none

/-- `_fetch_extracted_output` (`src/fetch.py` lines 63-115) after the concurrent
gather: `lines` are the sentences, `resps` the per-line service outcomes in the
same order. -/
def fetch_extracted_output (lines : List (List Char))
    (resps : List (Except Unit ExtractedOutputT)) : Option (List LineRecord) :=
  collectExtracted (resps.map fetch_line_result) lines

/-! ## Table parsing and rendering (`src/table_utils.py`,
`parse_html_table_to_markdown`)

The BeautifulSoup tree walk is modelled structurally: the input is the list of
`tr` rows of the found table, each a list of cells carrying the cell text
(`get_text(strip=False)`), the resolved style declarations and the `colspan`
attribute.  The style regular-expression searches are modelled by their match
results: each `StyleT` field is `some` of the captured numbers exactly when the
corresponding pattern matches the style string.  Rendering and column pruning,
which the code performs on pipe-joined strings, are embedded at the string
level (join and re-split included). -/

/-- Length units captured by the style patterns (`pt|px|em|rem`). -/
inductive CssUnit
  | pt
  | px
  | em
  | rem
deriving DecidableEq

/-- An exact decimal captured by one of the style patterns
(`-?\\d+(?:\\.\\d+)?`), kept as the fraction `num / den`; every constructed
value has a positive denominator (a power of ten from the literal, possibly
multiplied by the positive conversion denominators below). -/
structure CssNum where
  num : Int
  den : Nat
deriving DecidableEq

/-- The integer decimal `n`. -/
def CssNum.ofInt (n : Int) : CssNum := { num := n, den := 1 }

/-- Match results of the five style regular expressions of `src/table_utils.py`
lines 158-213 on a cell's style string.  The `padding-left`, `text-indent` and
`margin-left` patterns capture a number and its unit.  The four-token and
two-token `padding` shorthand patterns capture ONLY their numbers (the units
are non-capturing groups there). -/
structure StyleT where
  paddingLeft : Option (CssNum × CssUnit) := none
  paddingQuad : Option (CssNum × CssNum × CssNum × CssNum) := none
  paddingPair : Option (CssNum × CssNum) := none
  textIndent : Option (CssNum × CssUnit) := none
  marginLeft : Option (CssNum × CssUnit) := none
deriving DecidableEq

/-- One table cell: text content, resolved style matches, `colspan` attribute
(default 1). -/
structure CellT where
  text : List Char
  style : StyleT := {}
  colspan : Nat := 1
deriving DecidableEq

/-- Unit conversion of `src/table_utils.py` (`pt` times 1.33, `em`/`rem` times
16, `px` unchanged). -/
def cssToPx (v : CssNum) : CssUnit → CssNum
  | CssUnit.pt => { num := v.num * 133, den := v.den * 100 }
  | CssUnit.px => v
  | CssUnit.em => { num := v.num * 16, den := v.den }
  | CssUnit.rem => { num := v.num * 16, den := v.den }

/-- `indent_px = int(value) if value > 0 else 0`: with a positive denominator
the value is positive exactly when its numerator is, and Python `int()`
truncation of a positive value is the floor, here `num / den` in natural
division. -/
def truncPos (q : CssNum) : Int := if 0 < q.num then Int.ofNat (q.num.toNat / q.den) else 0

/-- The `for pattern in padding_patterns` loop (`src/table_utils.py` lines
166-181): the first matching pattern wins and the loop breaks, whatever value
it produced.  For the two shorthand patterns `padding_match.group(2)` is the
SECOND CAPTURED NUMBER, never the strings `pt`/`em`/`rem`, so no unit
conversion fires and the FIRST captured number (the top resp. vertical padding)
is used as a pixel count. -/
def paddingPatterns (st : StyleT) : Option Int :=
  match st.paddingLeft with
  | some (v, u) => some (truncPos (cssToPx v u))
  | none =>
    match st.paddingQuad with
    | some (a, _, _, _) => some (truncPos a)
    | none =>
      match st.paddingPair with
      | some (a, _) => some (truncPos a)
      | none => none

/-- `indent_px` after the whole style block (`src/table_utils.py` lines
156-213): padding patterns first; then, whenever `indent_px` is still falsy
(zero), `text-indent`; then, still conditional on falsiness, `margin-left`. -/
def styleIndentPx (st : StyleT) : Int :=
  let px1 : Int :=
    match paddingPatterns st with
    | some v => v
    | none => 0
  let px2 : Int :=
    if px1 = 0 then
      match st.textIndent with
      | some (v, u) => truncPos (cssToPx v u)
      | none => px1
    else px1
  if px2 = 0 then
    match st.marginLeft with
    | some (v, u) => truncPos (cssToPx v u)
    | none => px2
  else px2

/-- `leading_spaces = len(text) - len(text.lstrip())`. -/
def leadingSpaces (t : List Char) : Nat := t.length - (pyLstrip t).length

/-- `nbsp_count = text.count('&nbsp;') + text.count('&#160;') + text.count(' ')`. -/
def nbspCount (t : List Char) : Nat :=
  countSeq "&nbsp;".toList t + countSeq "&#160;".toList t + countSeq ['\u00a0'] t

/-- `space_from_px = indent_px // 8 if indent_px > 0 else 0`. -/
def spaceFromPx (ipx : Int) : Nat := if 0 < ipx then ipx.toNat / 8 else 0

/-- `effective_indent = max(leading_spaces, space_from_px, nbsp_count)`. -/
def effectiveIndent (cell : CellT) : Nat :=
  max (leadingSpaces cell.text) (max (spaceFromPx (styleIndentPx cell.style)) (nbspCount cell.text))

/-- `"&nbsp;" * n`. -/
def nbspRun (n : Nat) : List Char := (List.replicate n "&nbsp;".toList).flatten

/-- The per-cell text of `src/table_utils.py` lines 225-231: a positive
effective indent on the FIRST cell of a row becomes a run of `&nbsp;` markers
before the left-stripped text; every cell is right-stripped at the end. -/
def resolveCellText (cell : CellT) (idx : Nat) : List Char :=
  let t :=
    if 0 < effectiveIndent cell ∧ idx = 0 then
      nbspRun (effectiveIndent cell) ++ pyLstrip cell.text
    else
      pyLstrip cell.text
  pyRstrip t

/-- The cell loop of one row (`src/table_utils.py` lines 143-234): `idx` is the
running `enumerate` index and `row_data.extend([text] * colspan)` replicates
the resolved text `colspan` times. -/
def expandFrom (i : Nat) : List CellT → List (List Char)
  | [] => []
  | cell :: rest => List.replicate cell.colspan (resolveCellText cell i) ++ expandFrom (i + 1) rest

/-- One expanded row (`row_data`). -/
def expandRow (row : List CellT) : List (List Char) := expandFrom 0 row

/-- Byte-order mark. -/
def bomChar : Char := '\ufeff'

/-- Unicode replacement character. -/
def replChar : Char := '\ufffd'

/-- `cell.strip()` being empty, the BOM or the replacement character. -/
def blankCell (s : List Char) : Bool :=
  pyStrip s = [] || pyStrip s = [bomChar] || pyStrip s = [replChar]

/-- `writer` after the row loop (`src/table_utils.py` lines 141-238): expanded
rows, dropping every row whose cells are all blank after stripping. -/
def buildWriter (tbl : List (List CellT)) : List (List (List Char)) :=
  (tbl.map expandRow).filter (fun r => !(r.all blankCell))

/-- The single-space placeholder cell. -/
def spaceCell : List Char := [' ']

/-- The render loop of `src/table_utils.py` lines 252-259: a cell equal to the
previous tracked value collapses to a single space; an empty cell renders as a
single space and becomes the new tracked value. -/
def formatCellsAux (prev : Option (List Char)) : List (List Char) → List (List Char)
  | [] => []
  | cell :: rest =>
    if some cell = prev then
      spaceCell :: formatCellsAux prev rest
    else
      (if cell = [] then spaceCell else cell) :: formatCellsAux (some cell) rest

/-- `formatted_cells` for one row (`prev_cell` starts as `None`). -/
def formatCells (cells : List (List Char)) : List (List Char) :=
  formatCellsAux none cells

/-- `"| " + " | ".join(cells) + " |"`. -/
def joinCells (cells : List (List Char)) : List Char :=
  "| ".toList ++ List.intercalate " | ".toList cells ++ " |".toList

/-- The `---` cell of the header separator. -/
def dashes : List Char := "---".toList

/-- `markdown_table` after the row loop of `src/table_utils.py` lines 247-265:
each row is formatted and joined; the separator row (as many `---` as row 0 has
cells) is inserted directly after the first row. -/
def mdTable (writer : List (List (List Char))) : List (List Char) :=
  match writer with
  | [] => []
  | r0 :: rest =>
    joinCells (formatCells r0)
      :: joinCells (List.replicate r0.length dashes)
      :: rest.map (fun r => joinCells (formatCells r))

/-- Python `row.split('|')`. -/
def splitOnBar : List Char → List (List Char)
  | [] => [[]]
  | c :: rest =>
    if c = '|' then [] :: splitOnBar rest
    else
      match splitOnBar rest with
      | [] => [[c]]
      | g :: gs => (c :: g) :: gs

/-- `row.split('|')[1:-1]`. -/
def rowCells (row : List Char) : List (List Char) :=
  ((splitOnBar row).drop 1).dropLast

/-- The row filter of `src/table_utils.py` lines 269-281: row 0 and all-`---`
rows are kept; otherwise the row needs a stripped cell that is nonempty and
free of BOM, replacement character and (internal) spaces, or a nonempty first
stripped cell. -/
def keepRow (i : Nat) (row : List Char) : Bool :=
  let cells := (rowCells row).map pyStrip
  if i = 0 || cells.all (fun c => c = dashes) then true
  else
    cells.any (fun c =>
        c ≠ [] && !(c.contains bomChar || c.contains replChar || c.contains ' '))
      || cells.headD [] ≠ []

/-- `enumerate` of the row filter. -/
def filterRowsAux : Nat → List (List Char) → List (List Char)
  | _, [] => []
  | i, r :: rs =>
    if keepRow i r then r :: filterRowsAux (i + 1) rs
    else filterRowsAux (i + 1) rs

/-- `filtered_rows` (`src/table_utils.py` lines 269-281). -/
def filterRows (rows : List (List Char)) : List (List Char) := filterRowsAux 0 rows

/-- `"---" in row`: the separator-row test used during column pruning. -/
def isSepRow (row : List Char) : Bool := containsSeq dashes row

/-- `num_cols = len(filtered_rows[separator_idx].split('|')) - 2`. -/
def numColsOf (rows : List (List Char)) : Nat :=
  match rows.findIdx? isSepRow with
  | some i => (splitOnBar (rows.getD i [])).length - 2
  | none => 0

/-- The emptiness scan for one column index (`src/table_utils.py` lines
292-302): rows containing `---` are skipped; the column is nonempty as soon as
some row has a cell there whose stripped text is nonempty (and not a single
space, which a stripped string never is). -/
def colEmpty (rows : List (List Char)) (c : Nat) : Bool :=
  rows.all (fun r =>
    isSepRow r ||
      !(c < (rowCells r).length
        && pyStrip ((rowCells r).getD c []) ≠ []
        && pyStrip ((rowCells r).getD c []) ≠ spaceCell))

/-- `empty_col_indices`. -/
def emptyCols (rows : List (List Char)) : List Nat :=
  (List.range (numColsOf rows)).filter (fun c => colEmpty rows c)

/-- The per-row rewrite of `src/table_utils.py` lines 307-311: the cells at the
removed indices are dropped and the row is re-joined. -/
def stripRow (empties : List Nat) (row : List Char) : List Char :=
  let cells := rowCells row
  joinCells (((cells.enum).filter (fun p => !(empties.contains p.1))).map Prod.snd)

/-- Column pruning (`src/table_utils.py` lines 284-312): only when a separator
row exists; the empty-column index set is computed once and, when nonempty,
every row is rewritten with it. -/
def stripColumns (rows : List (List Char)) : List (List Char) :=
  match rows.findIdx? isSepRow with
  | none => rows
  | some _ =>
    let empties := emptyCols rows
    if empties = [] then rows else rows.map (stripRow empties)

/-- The final row list of `parse_html_table_to_markdown` (rows of the returned
string, in order). -/
def tableRows (tbl : List (List CellT)) : List (List Char) :=
  let writer := buildWriter tbl
  if writer = [] then [] else stripColumns (filterRows (mdTable writer))

/-- `parse_html_table_to_markdown` (`src/table_utils.py` lines 123-319) on the
structural table model: the rendered rows joined by line breaks. -/
def parse_html_table_to_markdown (tbl : List (List CellT)) : List Char :=
  List.intercalate ['\n'] (tableRows tbl)

/-! ## Claim-side and comparison definitions -/

/-- The largest row length of a grid. -/
def maxRowLen (g : List (List (List Char))) : Nat :=
  (g.map List.length).foldr max 0

/-- The spec's rectangularity invariant: every retained row has the same column
count, equal to the maximum expanded row length. -/
def gridRectangular (g : List (List (List Char))) : Bool :=
  g.all (fun r => r.length = maxRowLen g)

/-- Total expanded width of one source row: the sum of its cells' colspans. -/
def colspanSum (r : List CellT) : Nat := (r.map CellT.colspan).sum

/-- How the render loop shows the first copy of a value: collapsed to the
placeholder when it equals the tracked previous value, the placeholder when
empty, the value itself otherwise. -/
def renderHead (prev : Option (List Char)) (x : List Char) : List Char :=
  if some x = prev then spaceCell
  else if x = [] then spaceCell
  else x

/-- Claim side (C5): column `c` is empty in every retained NON-HEADER data row
(row index 0 and separator rows excluded). -/
def dataColEmpty (rows : List (List Char)) (c : Nat) : Bool :=
  rows.enum.all (fun p =>
    p.1 = 0 || isSepRow p.2 ||
      !(c < (rowCells p.2).length && pyStrip ((rowCells p.2).getD c []) ≠ []))

/-- Claim side (C5): the rendered row set has no column (below the
separator-derived column count) that is empty in every retained non-header
data row. -/
def noEmptyDataColumn (rows : List (List Char)) : Bool :=
  (List.range (numColsOf rows)).all (fun c => !dataColEmpty rows c)

/-- Claim side (C6): the CSS pixel count written as the claim states it — taken
from the first MATCH among padding-left / padding shorthand, then text-indent,
then margin-left, with the claimed unit conversions. -/
def claimCssPx (st : StyleT) : Int :=
  match st.paddingLeft with
  | some (v, u) => truncPos (cssToPx v u)
  | none =>
    match st.paddingQuad with
    | some (a, _, _, _) => truncPos a
    | none =>
      match st.paddingPair with
      | some (a, _) => truncPos a
      | none =>
        match st.textIndent with
        | some (v, u) => truncPos (cssToPx v u)
        | none =>
          match st.marginLeft with
          | some (v, u) => truncPos (cssToPx v u)
          | none => 0

/-- Claim side (C6): effective indent as the claim states it — the maximum of
the claim's CSS-derived space count, the literal leading-whitespace count and
the non-breaking-space count. -/
def claimEffIndent (cell : CellT) : Nat :=
  max (leadingSpaces cell.text) (max (spaceFromPx (claimCssPx cell.style)) (nbspCount cell.text))

/-- Claim side (C6): cell text as the claim states it — a positive effective
indent, on the first column only, becomes a run of non-breaking-space markers
before the trimmed text. -/
def claimResolve (cell : CellT) (idx : Nat) : List Char :=
  if 0 < claimEffIndent cell ∧ idx = 0 then
    pyRstrip (nbspRun (claimEffIndent cell) ++ pyLstrip cell.text)
  else
    pyRstrip (pyLstrip cell.text)

/-- Amended C6: the CSS pixel count actually computed — the first candidate in
priority order whose pixel count is POSITIVE wins (a matching pattern whose
count is zero or negative falls through to the next candidate). -/
def amendedCssPx (st : StyleT) : Int :=
  let p : Int :=
    match paddingPatterns st with
    | some v => v
    | none => 0
  if 0 < p then p
  else
    let t : Int :=
      match st.textIndent with
      | some (v, u) => truncPos (cssToPx v u)
      | none => 0
    if 0 < t then t
    else
      match st.marginLeft with
      | some (v, u) => truncPos (cssToPx v u)
      | none => 0

/-- Amended C6: effective indent with the fall-through CSS count. -/
def amendedEffIndent (cell : CellT) : Nat :=
  max (leadingSpaces cell.text) (max (spaceFromPx (amendedCssPx cell.style)) (nbspCount cell.text))

/-- Amended C6: cell text with the fall-through CSS count. -/
def amendedResolve (cell : CellT) (idx : Nat) : List Char :=
  if 0 < amendedEffIndent cell ∧ idx = 0 then
    pyRstrip (nbspRun (amendedEffIndent cell) ++ pyLstrip cell.text)
  else
    pyRstrip (pyLstrip cell.text)

/-! ## Concrete inputs used by counterexamples and witnesses -/

/-- A style-free, colspan-1 cell with the given text. -/
def cellOf (s : String) : CellT := { text := s.toList }

/-- Two-row table whose rows expand to widths 1 and 2. -/
def c2tbl : List (List CellT) := [[cellOf "a"], [cellOf "b", cellOf "c"]]

/-- Two-row table whose rows both expand to width 2. -/
def c2wTbl : List (List CellT) :=
  [[{ text := "a".toList, colspan := 2 }], [cellOf "b", cellOf "c"]]

/-- A colspan-2 cell whose text equals the preceding cell's text. -/
def c4cell : CellT := { text := "a".toList, colspan := 2 }

/-- Row whose second cell (colspan 2) repeats the first cell's text. -/
def c4row : List CellT := [cellOf "a", c4cell]

/-- A colspan-3 cell used to witness the amended span/render property. -/
def c4wCell : CellT := { text := "v".toList, colspan := 3 }

/-- Table whose second column is nonempty only in the header row. -/
def c5tbl : List (List CellT) :=
  [[cellOf "h1", cellOf "H"], [cellOf "a", cellOf ""], [cellOf "b", cellOf ""]]

/-- Cell whose style matches `padding-left: 0pt` and `text-indent: 80px`. -/
def c6cell : CellT :=
  { text := "x".toList
    style := { paddingLeft := some (CssNum.ofInt 0, CssUnit.pt)
               textIndent := some (CssNum.ofInt 80, CssUnit.px) } }

/-- A Stage-A metric descriptor. -/
def mdRevenue : MetricData :=
  { index := "3".toList
    category := "Financials".toList
    title := "Revenue".toList
    unit := "$".toList
    type_ := "actual".toList
    reference := "| Revenue | 100 |".toList }

/-- A Stage-B response cell. -/
def cellQ1 : CellOutput := { value := "100".toList, period := "2023 Q1".toList }

/-- A source sentence. -/
def lineRevenue : List Char := "Revenue was a record 100 million.".toList

/-- A successful Stage-A text response. -/
def eoRevenue : ExtractedOutputT :=
  { titles := ["Revenue".toList], values := ["100".toList], units := ["million".toList] }

/-! ## Claim theorems -/

/-- C1 (code bug): two response cells with identical `(title, period, value)`
are BOTH kept by `_fetch_table_data_cell_wise_output` — the dedup set
`added_cell` is re-created empty on every loop iteration, so the claimed
"exactly one kept record" fails: the duplicate input below yields two identical
records instead of one. -/
theorem c1_duplicate_kept_twice :
    fetch_table_data_cell_wise_output mdRevenue (Except.ok [cellQ1, cellQ1])
      = [mkTableRecord mdRevenue cellQ1, mkTableRecord mdRevenue cellQ1]
    ∧ (fetch_table_data_cell_wise_output mdRevenue (Except.ok [cellQ1, cellQ1])).length = 2 := by
  decide

/-- C3 (code bug): a failing Stage-A text-extraction call is caught and replaced
by `{"kpis": [], "values": [], "units": []}`, but the collection loop reads
`result['titles']` — the substituted default is NOT well-formed input for the
downstream step, so the run aborts with a `KeyError` (modelled by `none`)
instead of continuing; the success path on the same sentence goes through. -/
theorem c3_failure_default_malformed :
    fetch_extracted_output [lineRevenue] [Except.error ()] = none
    ∧ fetch_extracted_output [lineRevenue] [Except.ok eoRevenue]
        = some [{ title := "Revenue".toList, value := "100".toList,
                  unit := "million".toList, reference := lineRevenue }] := by
  decide

/-- C8 (confirmed): `is_numeric_value` accepts the negative-in-parentheses
convention — `"(1,234.56)"` is normalized to `"-1234.56"` before the float
check and accepted — while `"-"` and the empty string are rejected. -/
theorem c8_paren_negative_normalized :
    numeric_cleaned "(1,234.56)".toList = some "-1234.56".toList
    ∧ is_numeric_value "(1,234.56)".toList = true
    ∧ is_numeric_value "-".toList = false
    ∧ is_numeric_value [] = false := by
  decide

/-- C2 counterexample: the grid built for a table whose two retained rows expand
to widths 1 and 2 is not rectangular — the parser never pads rows. -/
theorem c2_counterexample :
    gridRectangular (buildWriter c2tbl) = false
    ∧ (buildWriter c2tbl).map List.length = [1, 2] := by
  decide

/-- C4 counterexample: in the row `[a, a(colspan 2)]` the colspan-2 cell's
copies sit at positions 1 and 2 of the expanded row; the claim says exactly the
second copy (position 2) is replaced by the placeholder, but the rendered row
collapses the FIRST copy (position 1) as well, because it equals the preceding
cell's value. -/
theorem c4_counterexample :
    expandRow c4row = ["a".toList, "a".toList, "a".toList]
    ∧ formatCells (expandRow c4row) = ["a".toList, spaceCell, spaceCell]
    ∧ resolveCellText c4cell 1 ≠ spaceCell := by
  decide

/-- C5 counterexample: the rendered output of `c5tbl` keeps a column (index 1)
that is empty in every retained non-header data row, because the emptiness scan
also consults the header row 0, where the column is nonempty. -/
theorem c5_counterexample :
    noEmptyDataColumn (tableRows c5tbl) = false
    ∧ numColsOf (tableRows c5tbl) = 2 := by
  decide

/-- C6 counterexample: with style matches `padding-left: 0pt` (first match,
yielding pixel count 0) and `text-indent: 80px`, the claim's first-match rule
predicts indent 0 and bare text `x`, but the code lets the zero padding value
fall through to `text-indent` and prefixes ten non-breaking-space markers. -/
theorem c6_counterexample :
    resolveCellText c6cell 0 = nbspRun 10 ++ "x".toList
    ∧ claimResolve c6cell 0 = "x".toList
    ∧ resolveCellText c6cell 0 ≠ claimResolve c6cell 0 := by
  decide

/-! ## Helper lemmas -/

/-- A shorter front matches wherever a longer front does. -/
theorem startsWith_take (p s : List Char) (k : Nat) :
    startsWith p s = true → startsWith (p.take k) s = true := by
  induction p generalizing s k with
  | nil => simp [List.take_nil, startsWith]
  | cons a as ih =>
    intro hp
    cases s with
    | nil => simp [startsWith] at hp
    | cons b bs =>
      cases k with
      | zero => simp [startsWith]
      | succ k =>
        simp only [startsWith, Bool.and_eq_true, decide_eq_true_eq] at hp
        simp only [List.take_succ_cons, startsWith, Bool.and_eq_true, decide_eq_true_eq]
        exact ⟨hp.1, ih bs k hp.2⟩

/-- A front part of a contained pattern is contained. -/
theorem containsSeq_take (p s : List Char) (k : Nat) :
    containsSeq p s = true → containsSeq (p.take k) s = true := by
  induction s with
  | nil =>
    simp only [containsSeq, List.isEmpty_iff]
    rintro rfl
    simp
  | cons c rest ih =>
    simp only [containsSeq, Bool.or_eq_true]
    rintro (hs | hc)
    · exact Or.inl (startsWith_take p (c :: rest) k hs)
    · exact Or.inr (ih hc)

/-- Containment of prefixes of `v` in `h` is downward closed in the prefix
length. -/
theorem containsSeq_take_anti (h v : List Char) (j k : Nat) (hjk : j ≤ k)
    (hk : containsSeq (v.take k) h = true) : containsSeq (v.take j) h = true := by
  have := containsSeq_take (v.take k) h j hk
  rwa [List.take_take, min_eq_left hjk] at this

/-- The empty pattern is contained in every string. -/
theorem containsSeq_nil (h : List Char) : containsSeq [] h = true := by
  cases h <;> simp [containsSeq, startsWith]

/-- Loop invariant of `check_valid_value`: started at position `i` with the
last successful prefix `v.take (i-1)` in hand and fuel for the remaining
iterations, the loop returns the longest contained prefix of `v`. -/
theorem cvvLoop_correct (h v : List Char) :
    ∀ fuel i, 1 ≤ i → i + fuel = v.length + 1 →
      containsSeq (v.take (i - 1)) h = true →
      ∃ m, i - 1 ≤ m ∧ m ≤ v.length
        ∧ cvvLoop h v fuel i (v.take (i - 1)) = v.take m
        ∧ containsSeq (v.take m) h = true
        ∧ ∀ k, m < k → k ≤ v.length → containsSeq (v.take k) h = false := by
  intro fuel
  induction fuel with
  | zero =>
    intro i hi hlen hin
    refine ⟨i - 1, le_refl _, by omega, rfl, hin, ?_⟩
    intro k hk hk2
    omega
  | succ fuel ih =>
    intro i hi hlen hin
    simp only [cvvLoop]
    by_cases hQ : containsSeq (v.take i) h = true
    · rw [if_pos hQ]
      have hi2 : i + 1 - 1 = i := by omega
      obtain ⟨m, hm1, hm2, hm3, hm4, hm5⟩ := ih (i + 1) (by omega) (by omega) (by rwa [hi2])
      rw [hi2] at hm3
      exact ⟨m, by omega, hm2, hm3, hm4, hm5⟩
    · rw [if_neg hQ]
      refine ⟨i - 1, le_refl _, by omega, rfl, hin, ?_⟩
      intro k hk hk2
      by_contra hkc
      have hktrue : containsSeq (v.take k) h = true := by
        cases hcase : containsSeq (v.take k) h
        · exact absurd hcase hkc
        · rfl
      exact hQ (containsSeq_take_anti h v i k (by omega) hktrue)

/-- `check_valid_value` returns `v.take m` for the largest `m` whose prefix is
contained in the source. -/
theorem check_valid_value_spec (h v : List Char) :
    ∃ m, m ≤ v.length
      ∧ check_valid_value h v = v.take m
      ∧ containsSeq (v.take m) h = true
      ∧ ∀ k, m < k → k ≤ v.length → containsSeq (v.take k) h = false := by
  by_cases hempty : v = [] ∨ h = []
  · refine ⟨0, Nat.zero_le _, ?_, by simpa using containsSeq_nil h, ?_⟩
    · simp [check_valid_value, hempty]
    · intro k hk hk2
      rcases hempty with rfl | rfl
      · simp at hk2; omega
      · have hne : v.take k ≠ [] := by
          have hv : v ≠ [] := by
            rintro rfl
            simp at hk2
            omega
          cases v with
          | nil => exact absurd rfl hv
          | cons a as => cases k with
            | zero => omega
            | succ k => simp
        simp only [containsSeq, List.isEmpty_iff]
        cases hcase : v.take k
        · exact absurd hcase hne
        · simp_all
  · push_neg at hempty
    have hcv : check_valid_value h v = cvvLoop h v v.length 1 [] := by
      simp [check_valid_value, hempty.1, hempty.2]
    have h0 : containsSeq (v.take (1 - 1)) h = true := by
      simpa using containsSeq_nil h
    obtain ⟨m, _, hm2, hm3, hm4, hm5⟩ := cvvLoop_correct h v v.length 1 (le_refl _) (by omega) h0
    rw [hcv]
    have hm3a : cvvLoop h v v.length 1 [] = v.take m := by simpa using hm3
    exact ⟨m, hm2, hm3a, hm4, hm5⟩

/-- C7 (confirmed): `check_valid_value` returns the longest leading part of the
candidate that occurs literally in the source text (formalized: the result is
`v.take m` for some `m`, it is contained in the source, and every contained
prefix is at most as long), and an empty candidate or an empty source yields
the empty result. -/
theorem c7_longest_contained_lead (h v : List Char) :
    (∃ m, check_valid_value h v = v.take m)
    ∧ containsSeq (check_valid_value h v) h = true
    ∧ (∀ k, k ≤ v.length → containsSeq (v.take k) h = true →
        k ≤ (check_valid_value h v).length)
    ∧ ((v = [] ∨ h = []) → check_valid_value h v = []) := by
  obtain ⟨m, hm1, hm2, hm3, hm4⟩ := check_valid_value_spec h v
  refine ⟨⟨m, hm2⟩, by rwa [hm2], ?_, ?_⟩
  · intro k hk hkQ
    rw [hm2, List.length_take, min_eq_left hm1]
    by_contra hgt
    push_neg at hgt
    have := hm4 k hgt hk
    rw [hkQ] at this
    exact absurd this (by simp)
  · intro hempty
    simp [check_valid_value, hempty]

/-- Witness for C7 at concrete inputs: the prefix `ab` of `abz` is contained in
`xaby`, so the verified value has length at least 2. -/
theorem c7_witness : 2 ≤ (check_valid_value "xaby".toList "abz".toList).length :=
  (c7_longest_contained_lead "xaby".toList "abz".toList).2.2.1 2 (by decide) (by decide)

/-- C9 (confirmed): the value verifier is idempotent — verifying the verified
prefix returns it unchanged. -/
theorem c9_idempotent (h v : List Char) :
    check_valid_value h (check_valid_value h v) = check_valid_value h v := by
  obtain ⟨m, hm1, hm2, hm3, hm4⟩ := check_valid_value_spec h v
  by_cases hr : check_valid_value h v = []
  · rw [hr]
    simp [check_valid_value]
  · obtain ⟨m2, hn1, hn2, hn3, hn4⟩ := check_valid_value_spec h (check_valid_value h v)
    have hlen : (check_valid_value h v).length = m := by
      rw [hm2, List.length_take, min_eq_left hm1]
    by_cases hm2len : m2 = (check_valid_value h v).length
    · rw [hn2, hm2len, List.take_length]
    · have hm2lt : m2 < (check_valid_value h v).length := by
        have := hn1
        omega
      have htake : (check_valid_value h v).take (check_valid_value h v).length
          = v.take m := by
        rw [List.take_length, hm2]
      have hQfull : containsSeq ((check_valid_value h v).take
          (check_valid_value h v).length) h = true := by
        rw [htake]
        exact hm3
      have := hn4 (check_valid_value h v).length hm2lt (le_refl _)
      rw [hQfull] at this
      exact absurd this (by simp)

/-- One expanded row is as long as the sum of its cells' colspans, wherever the
cell enumeration starts. -/
theorem expandFrom_length (r : List CellT) :
    ∀ i, (expandFrom i r).length = colspanSum r := by
  induction r with
  | nil => intro i; simp [expandFrom, colspanSum]
  | cons cell rest ih =>
    intro i
    simp [expandFrom, colspanSum, ih (i + 1)]

/-- C2 amended: the parser does not pad rows, so the grid is rectangular
exactly as far as the source rows agree in total colspan — when every source
row has colspan sum `w`, every retained grid row has column count `w`. -/
theorem c2_equal_colspan_sums_rectangular (tbl : List (List CellT)) (w : Nat)
    (hw : ∀ r ∈ tbl, colspanSum r = w) :
    ∀ row ∈ buildWriter tbl, row.length = w := by
  intro row hrow
  have hmem : row ∈ tbl.map expandRow := (List.mem_filter.1 hrow).1
  obtain ⟨src, hsrc, rfl⟩ := List.mem_map.1 hmem
  rw [expandRow, expandFrom_length src 0]
  exact hw src hsrc

/-- Witness for the amended C2 at a concrete table whose rows both have
colspan sum 2, evaluated on its first retained row. -/
theorem c2_witness : (["a".toList, "a".toList] : List (List Char)).length = 2 :=
  c2_equal_colspan_sums_rectangular c2wTbl 2 (by decide) ["a".toList, "a".toList] (by decide)

/-- Splitting the cell enumeration of a row. -/
theorem expandFrom_append (pre post : List CellT) :
    ∀ i, expandFrom i (pre ++ post) = expandFrom i pre ++ expandFrom (i + pre.length) post := by
  induction pre with
  | nil => intro i; simp [expandFrom]
  | cons cell rest ih =>
    intro i
    have hpeel : (cell :: rest) ++ post = cell :: (rest ++ post) := rfl
    rw [hpeel]
    have hstep : expandFrom i (cell :: (rest ++ post))
        = List.replicate cell.colspan (resolveCellText cell i)
          ++ expandFrom (i + 1) (rest ++ post) := rfl
    have hstep2 : expandFrom i (cell :: rest)
        = List.replicate cell.colspan (resolveCellText cell i)
          ++ expandFrom (i + 1) rest := rfl
    rw [hstep, hstep2, ih (i + 1), List.append_assoc, List.length_cons]
    have harith : i + 1 + rest.length = i + (rest.length + 1) := by omega
    rw [harith]

/-- Rendering a block of `n` equal values: the first copy renders via
`renderHead`, the remaining `n - 1` copies collapse to the placeholder, and the
tracked previous value afterwards is the block's value. -/
theorem formatCellsAux_replicate (x : List Char) :
    ∀ n, 1 ≤ n → ∀ (prev : Option (List Char)) (back : List (List Char)),
      formatCellsAux prev (List.replicate n x ++ back)
        = renderHead prev x
            :: (List.replicate (n - 1) spaceCell ++ formatCellsAux (some x) back) := by
  intro n
  induction n with
  | zero => omega
  | succ k ih =>
    intro _ prev back
    have hpeel : List.replicate (k + 1) x ++ back = x :: (List.replicate k x ++ back) := by
      simp [List.replicate_succ]
    rw [hpeel]
    have hstep : formatCellsAux prev (x :: (List.replicate k x ++ back))
        = if some x = prev then
            spaceCell :: formatCellsAux prev (List.replicate k x ++ back)
          else
            (if x = [] then spaceCell else x)
              :: formatCellsAux (some x) (List.replicate k x ++ back) := rfl
    rw [hstep]
    cases k with
    | zero =>
      by_cases hp : some x = prev
      · rw [if_pos hp, ← hp]
        simp [renderHead]
      · rw [if_neg hp]
        simp [renderHead, hp]
    | succ j =>
      have hj : 1 ≤ j + 1 := by omega
      by_cases hp : some x = prev
      · rw [if_pos hp, ← hp, ih hj (some x) back]
        simp [renderHead, List.replicate_succ]
      · rw [if_neg hp, ih hj (some x) back]
        simp [renderHead, hp, List.replicate_succ]

/-- C4 amended: a cell with `colspan = n ≥ 1` contributes exactly `n`
equal-valued copies of its resolved text to the expanded row; when the row is
rendered, the second through n-th copies are collapsed to the single-space
placeholder, while the first copy renders as the cell's text only when that
text is nonempty and differs from the previously tracked value — when it
coincides with the previous value (or is empty) it too becomes the
placeholder, as `renderHead` states. -/
theorem c4_span_copies_and_render (pre post : List CellT) (c : CellT)
    (hn : 1 ≤ c.colspan) (prev : Option (List Char)) (back : List (List Char)) :
    expandRow (pre ++ c :: post)
      = expandFrom 0 pre
        ++ List.replicate c.colspan (resolveCellText c pre.length)
        ++ expandFrom (pre.length + 1) post
    ∧ formatCellsAux prev (List.replicate c.colspan (resolveCellText c pre.length) ++ back)
      = renderHead prev (resolveCellText c pre.length)
          :: (List.replicate (c.colspan - 1) spaceCell
              ++ formatCellsAux (some (resolveCellText c pre.length)) back) := by
  constructor
  · rw [expandRow, expandFrom_append pre (c :: post) 0]
    simp only [expandFrom, Nat.zero_add, List.append_assoc]
  · exact formatCellsAux_replicate (resolveCellText c pre.length) c.colspan hn prev back

/-- Witness for the amended C4 at a concrete colspan-3 cell. -/
theorem c4_witness :
    expandRow [c4wCell]
      = expandFrom 0 []
        ++ List.replicate c4wCell.colspan (resolveCellText c4wCell 0)
        ++ expandFrom 1 []
    ∧ formatCellsAux none (List.replicate c4wCell.colspan (resolveCellText c4wCell 0) ++ [])
      = renderHead none (resolveCellText c4wCell 0)
          :: (List.replicate (c4wCell.colspan - 1) spaceCell
              ++ formatCellsAux (some (resolveCellText c4wCell 0)) []) :=
  c4_span_copies_and_render [] [] c4wCell (by decide) none []

/-- A list whose bounded conjunction is `false` has a member refuting the
predicate. -/
theorem all_eq_false_witness {α : Type} (p : α → Bool) (l : List α)
    (h : l.all p = false) : ∃ x ∈ l, p x = false := by
  induction l with
  | nil => simp [List.all_nil] at h
  | cons a as ih =>
    rcases hpa : p a with _ | _
    · exact ⟨a, List.mem_cons_self a as, hpa⟩
    · have has : as.all p = false := by
        rw [List.all_cons, hpa] at h
        simpa using h
      obtain ⟨x, hx, hpx⟩ := ih has
      exact ⟨x, List.mem_cons_of_mem a hx, hpx⟩

/-- C5 amended: the column-emptiness scan consults every retained row EXCEPT
separator rows — the header row 0 included — so a column that survives pruning
(its scan came back nonempty) has a nonblank cell in some retained
non-separator row, possibly only the header; and pruning is transactional: the
index set is computed once and either no row changes or every row is rewritten
with that same set. -/
theorem c5_kept_column_nonblank_somewhere (rows : List (List Char)) (c : Nat)
    (hsep : (rows.findIdx? isSepRow).isSome = true)
    (hkeep : colEmpty rows c = false) :
    (∃ r ∈ rows, isSepRow r = false
        ∧ c < (rowCells r).length
        ∧ pyStrip ((rowCells r).getD c []) ≠ [])
    ∧ stripColumns rows
        = if emptyCols rows = [] then rows
          else rows.map (stripRow (emptyCols rows)) := by
  constructor
  · have hkeep2 : (rows.all (fun r =>
        isSepRow r ||
          !(c < (rowCells r).length
            && pyStrip ((rowCells r).getD c []) ≠ []
            && pyStrip ((rowCells r).getD c []) ≠ spaceCell))) = false := hkeep
    obtain ⟨r, hr, hpr⟩ := all_eq_false_witness _ rows hkeep2
    refine ⟨r, hr, ?_⟩
    have hparts := Bool.or_eq_false_iff.mp hpr
    have hg : (decide (c < (rowCells r).length)
        && decide (pyStrip ((rowCells r).getD c []) ≠ [])
        && decide (pyStrip ((rowCells r).getD c []) ≠ spaceCell)) = true := by
      rcases hcase : (decide (c < (rowCells r).length)
          && decide (pyStrip ((rowCells r).getD c []) ≠ [])
          && decide (pyStrip ((rowCells r).getD c []) ≠ spaceCell)) with _ | _
      · rw [hcase] at hparts
        simp at hparts
      · rfl
    simp only [Bool.and_eq_true, decide_eq_true_eq] at hg
    exact ⟨hparts.1, hg.1.1, hg.1.2⟩
  · obtain ⟨i, hi⟩ := Option.isSome_iff_exists.mp hsep
    rw [stripColumns, hi]

/-- Witness for the amended C5 on the concrete rendered rows of `c5tbl`,
column 0. -/
theorem c5_witness :
    (∃ r ∈ tableRows c5tbl, isSepRow r = false
        ∧ 0 < (rowCells r).length
        ∧ pyStrip ((rowCells r).getD 0 []) ≠ [])
    ∧ stripColumns (tableRows c5tbl)
        = if emptyCols (tableRows c5tbl) = [] then tableRows c5tbl
          else (tableRows c5tbl).map (stripRow (emptyCols (tableRows c5tbl))) :=
  c5_kept_column_nonblank_somewhere (tableRows c5tbl) 0 (by decide) (by decide)

/-- `truncPos` never returns a negative count. -/
theorem truncPos_nonneg (q : CssNum) : 0 ≤ truncPos q := by
  rw [truncPos]
  split
  · exact Int.ofNat_nonneg _
  · exact le_refl 0

/-- Every value produced by the padding-pattern loop is nonnegative. -/
theorem paddingPatterns_nonneg (st : StyleT) (v : Int)
    (h : paddingPatterns st = some v) : 0 ≤ v := by
  rw [paddingPatterns] at h
  rcases hpl : st.paddingLeft with _ | ⟨v1, u1⟩ <;> rw [hpl] at h
  · rcases hpq : st.paddingQuad with _ | ⟨a, b, c2, d⟩ <;> rw [hpq] at h
    · rcases hp2 : st.paddingPair with _ | ⟨a, b⟩ <;> rw [hp2] at h
      · exact absurd h (by simp)
      · rw [Option.some_inj] at h
        rw [← h]
        exact truncPos_nonneg a
    · rw [Option.some_inj] at h
      rw [← h]
      exact truncPos_nonneg a
  · rw [Option.some_inj] at h
    rw [← h]
    exact truncPos_nonneg (cssToPx v1 u1)

/-- The sequential falsy-fall-through chain of the source equals the
"first positive candidate wins" formulation. -/
theorem styleIndentPx_eq_amended (st : StyleT) : styleIndentPx st = amendedCssPx st := by
  rcases hpp : paddingPatterns st with _ | v
  · rcases hti : st.textIndent with _ | ⟨tv, tu⟩ <;>
      rcases hm : st.marginLeft with _ | ⟨mv, mu⟩ <;>
        simp only [styleIndentPx, amendedCssPx, hpp, hti, hm] <;>
          split_ifs <;>
            first
              | rfl
              | (have ht0 : 0 ≤ truncPos (cssToPx tv tu) := truncPos_nonneg _; omega)
              | omega
  · have hv0 : 0 ≤ v := paddingPatterns_nonneg st v hpp
    rcases hti : st.textIndent with _ | ⟨tv, tu⟩ <;>
      rcases hm : st.marginLeft with _ | ⟨mv, mu⟩ <;>
        simp only [styleIndentPx, amendedCssPx, hpp, hti, hm] <;>
          split_ifs <;>
            first
              | rfl
              | (have ht0 : 0 ≤ truncPos (cssToPx tv tu) := truncPos_nonneg _; omega)
              | omega

/-- C6 amended: the effective indent is the maximum of the CSS-derived space
count, the literal leading-whitespace count and the non-breaking-space count,
and a positive indent is applied only to the first column as a run of
non-breaking-space markers — with the CSS count taken from the first candidate
(padding patterns, then text-indent, then margin-left) that yields a POSITIVE
pixel value; a matched pattern yielding a nonpositive count falls through to
the later candidates instead of winning. -/
theorem c6_indent_max_rule (cell : CellT) (idx : Nat) :
    styleIndentPx cell.style = amendedCssPx cell.style
    ∧ effectiveIndent cell = amendedEffIndent cell
    ∧ resolveCellText cell idx = amendedResolve cell idx := by
  have h1 := styleIndentPx_eq_amended cell.style
  have h2 : effectiveIndent cell = amendedEffIndent cell := by
    rw [effectiveIndent, amendedEffIndent, h1]
  refine ⟨h1, h2, ?_⟩
  show pyRstrip (if 0 < effectiveIndent cell ∧ idx = 0 then
      nbspRun (effectiveIndent cell) ++ pyLstrip cell.text
    else pyLstrip cell.text) = amendedResolve cell idx
  rw [h2, amendedResolve]
  split_ifs <;> rfl

/-- C10 (confirmed): every record emitted by the Stage-B cell-wise call carries
the descriptor's `index`, `category`, `title`, `unit`, `type_` and table
`reference` unchanged, and its `value`/`period` are the stripped fields of some
response cell. -/
theorem c10_descriptor_fields_preserved (md : MetricData) :
    ∀ (cells : List CellOutput) (r : TableRecord),
      r ∈ fetch_table_data_cell_wise_output md (Except.ok cells) →
      r.index = md.index ∧ r.category = md.category ∧ r.title = md.title
        ∧ r.unit = md.unit ∧ r.type_ = md.type_ ∧ r.reference = md.reference
        ∧ ∃ cell ∈ cells, r.value = pyStrip cell.value ∧ r.period = pyStrip cell.period := by
  intro cells
  induction cells with
  | nil =>
    intro r hr
    simp [fetch_table_data_cell_wise_output, processCells] at hr
  | cons cell rest ih =>
    intro r hr
    have hr2 : r ∈ processCells md (cell :: rest) := hr
    rw [processCells] at hr2
    split at hr2
    · rcases List.mem_cons.1 hr2 with rfl | hmem
      · exact ⟨rfl, rfl, rfl, rfl, rfl, rfl, cell, List.mem_cons_self cell rest, rfl, rfl⟩
      · obtain ⟨h1, h2, h3, h4, h5, h6, cell2, hcell2, hv, hp⟩ := ih r hmem
        exact ⟨h1, h2, h3, h4, h5, h6, cell2, List.mem_cons_of_mem cell hcell2, hv, hp⟩
    · obtain ⟨h1, h2, h3, h4, h5, h6, cell2, hcell2, hv, hp⟩ := ih r hr2
      exact ⟨h1, h2, h3, h4, h5, h6, cell2, List.mem_cons_of_mem cell hcell2, hv, hp⟩

/-- Witness for C10 at a concrete descriptor and single-cell response. -/
theorem c10_witness :
    (mkTableRecord mdRevenue cellQ1).index = mdRevenue.index
    ∧ (mkTableRecord mdRevenue cellQ1).category = mdRevenue.category
    ∧ (mkTableRecord mdRevenue cellQ1).title = mdRevenue.title
    ∧ (mkTableRecord mdRevenue cellQ1).unit = mdRevenue.unit
    ∧ (mkTableRecord mdRevenue cellQ1).type_ = mdRevenue.type_
    ∧ (mkTableRecord mdRevenue cellQ1).reference = mdRevenue.reference
    ∧ ∃ cell ∈ [cellQ1], (mkTableRecord mdRevenue cellQ1).value = pyStrip cell.value
        ∧ (mkTableRecord mdRevenue cellQ1).period = pyStrip cell.period :=
  c10_descriptor_fields_preserved mdRevenue [cellQ1] (mkTableRecord mdRevenue cellQ1) (by decide)
